import Mathlib

/-!
Verification development for the trend-selection engine and pipeline
orchestrator of an AI news content pipeline.

The Python source is shallowly embedded: pure functions become Lean
functions, floating-point scores become exact rationals (`ℚ`), wall-clock
instants become rational epoch-seconds, and the external `datetime.strptime`
parse of a `published_at` string is represented by an `Option ℚ` field
holding the parse result (`none` when the string does not parse).
Stage operations that may raise become `Except String` values.
-/

namespace Bob

/-- One ingested news record, as consumed by the trend selector.
`brand` is the raw string field with the empty string standing for a
missing brand (the source reads it with a default of the empty string).
`published_at` holds the epoch-second instant obtained by parsing the
record's timestamp string in the fixed format, or `none` when the string
is missing or does not parse (the source's `strptime` raising). -/
structure NewsItem where
  title : String
  summary : String
  brand : String
  published_at : Option ℚ
deriving DecidableEq, Repr

/-- The fixed topic taxonomy: label paired with its ordered keyword list,
in the source's iteration order (module constant TOPIC_KEYWORDS). -/
def TOPIC_KEYWORDS : List (String × List String) :=
  [("AI Models", ["gpt", "model", "llm", "transformer", "diffusion", "claude", "gemini", "llama"]),
   ("AI Agents", ["agent", "autonomous", "workflow", "automation", "copilot", "assistant"]),
   ("AI Regulation", ["regulation", "policy", "law", "eu ai act", "safety", "governance"]),
   ("AI Business", ["investment", "funding", "acquisition", "valuation", "revenue", "market"]),
   ("AI Research", ["paper", "research", "benchmark", "accuracy", "performance", "state-of-the-art"]),
   ("AI Hardware", ["gpu", "tpu", "chip", "nvidia", "amd", "intel", "hardware", "compute"]),
   ("AI Open Source", ["open source", "github", "hugging face", "release", "library", "framework"]),
   ("AI Ethics", ["bias", "ethics", "fairness", "privacy", "misuse", "dangerous"])]

/-- The fixed high-priority brand list (module constant HIGH_PRIORITY_BRANDS). -/
def HIGH_PRIORITY_BRANDS : List String :=
  ["OpenAI", "Google", "Anthropic", "Meta", "Microsoft", "NVIDIA"]

/-- Substring test: `kwIn kw text` models the Python membership test of the
string `kw` inside the character sequence `text` (`kw in text`). -/
def kwIn (kw : String) (text : List Char) : Bool :=
  decide (kw.toList <:+: text)

/-- Topic classification (`TrendSelector._classify_topic`): lower-case the
text (modelled character-wise, which agrees with Python `str.lower` on the
ASCII texts involved), scan the taxonomy in order, return the first label
one of whose keywords occurs in the text, defaulting to "AI General". -/
def classify_topic (text : String) : String :=
  let text_lower := text.toList.map Char.toLower
  match TOPIC_KEYWORDS.find? (fun p => p.2.any (fun kw => kwIn kw text_lower)) with
  | some p => p.1
  | none => "AI General"

/-- Cluster score (`TrendSelector._calculate_score`): frequency plus a
per-item brand bonus loop plus a per-item recency loop, each embedded as a
left fold mirroring the source's accumulation order. `now` is the
evaluation instant in epoch seconds. -/
def calculate_score (now : ℚ) (cluster : List NewsItem) : ℚ :=
  let frequency_score : ℚ := cluster.length
  let brand_score : ℚ := cluster.foldl
    (fun acc news =>
      if news.brand ≠ "" ∧ news.brand ∈ HIGH_PRIORITY_BRANDS then acc + 2 else acc) 0
  let recency_score : ℚ := cluster.foldl
    (fun acc news =>
      match news.published_at with
      | some pub => acc + max 0 (1 - ((now - pub) / 3600) / 24) * (1 / 2)
      | none => acc + 1 / 4) 0
  frequency_score + brand_score + recency_score

/-- Per-item recency contribution: the amount the recency loop of
`_calculate_score` adds for one item (0.5 scaled freshness when the
timestamp parsed, fixed fallback 0.25 otherwise). -/
def recencyItem (now : ℚ) (news : NewsItem) : ℚ :=
  match news.published_at with
  | some pub => max 0 (1 - ((now - pub) / 3600) / 24) * (1 / 2)
  | none => 1 / 4

/-- Keeps the first occurrence of each element, in encounter order; used to
model the set of distinct brands collected by `_generate_description`
(the Python set is given a deterministic first-seen iteration order here;
no claim depends on the rendered order). -/
def firstSeen (l : List String) : List String :=
  l.foldl (fun acc b => if b ∈ acc then acc else acc ++ [b]) []

/-- Trend description (`TrendSelector._generate_description`): topic label,
item count, distinct brands (or a placeholder), up to two titles, truncated
to 300 characters. -/
def generate_description (cluster : List NewsItem) (topic : String) : String :=
  let titles := (cluster.take 3).map (fun news => news.title)
  let brands := firstSeen ((cluster.map (fun news => news.brand)).filter (fun b => b ≠ ""))
  let brands_str := if brands.isEmpty then "Various companies" else String.intercalate ", " brands
  let count := cluster.length
  let description :=
    topic ++ ": " ++ toString count ++ " новостей от " ++ brands_str ++
      ". Ключевые события: " ++ String.intercalate "; " (titles.take 2)
  description.take 300

/-- The classification key of a record: the source classifies the
concatenation of title, a space, and summary. -/
def keyOf (record : NewsItem) : String :=
  classify_topic (record.title ++ " " ++ record.summary)

/-- Appends a record to the bucket of its topic, creating the bucket at the
end when the topic is new; this is the behaviour of the source's
`defaultdict(list)` with Python's insertion-ordered keys. -/
def addToCluster (cs : List (String × List NewsItem)) (topic : String) (record : NewsItem) :
    List (String × List NewsItem) :=
  match cs with
  | [] => [(topic, [record])]
  | (t, items) :: rest =>
    if t = topic then (t, items ++ [record]) :: rest
    else (t, items) :: addToCluster rest topic record

/-- Clustering (`TrendSelector.cluster_news`): classify every record and
append it to its topic bucket, keys in first-seen order. -/
def cluster_news (records : List NewsItem) : List (String × List NewsItem) :=
  records.foldl (fun cs record => addToCluster cs (keyOf record) record) []

/-- The trend record produced by the ranker (`select_top_trends` item). -/
structure Trend where
  title : String
  description : String
  score : ℚ
  count : ℕ
  news : List NewsItem
deriving DecidableEq, Repr

/-- Builds the trend record for one cluster, as `select_top_trends` does
inside its loop. -/
def mkTrend (now : ℚ) (topic : String) (cluster : List NewsItem) : Trend :=
  { title := topic
    description := generate_description cluster topic
    score := calculate_score now cluster
    count := cluster.length
    news := cluster }

/-- Descending-score comparison used by the ranker's stable sort. -/
def trendGE (a b : Trend) : Prop := b.score ≤ a.score

instance : DecidableRel trendGE := fun a b => inferInstanceAs (Decidable (b.score ≤ a.score))

instance : IsTotal Trend trendGE := ⟨fun a b => le_total b.score a.score⟩

instance : IsTrans Trend trendGE := ⟨fun _ _ _ h h2 => le_trans h2 h⟩

/-- The trend list before truncation: one trend per cluster in encounter
order, stably sorted by descending score (Python's stable `sort` with
`reverse=True`). -/
def sortedTrends (now : ℚ) (clusters : List (String × List NewsItem)) : List Trend :=
  List.insertionSort trendGE (clusters.map (fun p => mkTrend now p.1 p.2))

/-- Ranking (`TrendSelector.select_top_trends`): score and describe every
cluster, sort by score descending (stable), keep the first `top_n`. -/
def select_top_trends (now : ℚ) (clusters : List (String × List NewsItem)) (top_n : ℕ) :
    List Trend :=
  (sortedTrends now clusters).take top_n

/-- Trend-selector entry point (`TrendSelector.run`), with the external
store read supplied as the `records` argument. The boolean of the result
records whether `generate_trends_md` was invoked (a trends file written). -/
def trendSelectorRun (now : ℚ) (records : List NewsItem) : List Trend × Bool :=
  if records.isEmpty then ([], false)
  else
    let top_trends := select_top_trends now (cluster_news records) 5
    (top_trends, !top_trends.isEmpty)

/-- Copywriter entry point (`BobCopywriter.run`), with the external post
generator and the external sheet writer supplied as arguments. `trends`
is `none` for Python's `None`; Python's falsiness test rejects both `none`
and the empty list. Returns the number of saved posts. -/
def copywriterRun {γ : Type} (genPosts : List Trend → ℕ → List γ)
    (saveToSheets : List γ → ℕ) (trends : Option (List Trend)) : ℕ :=
  match trends with
  | none => 0
  | some ts =>
    if ts.isEmpty then 0
    else
      let posts := genPosts ts 4
      if posts.isEmpty then 0 else saveToSheets posts

/-- Status of one stage outcome. -/
inductive StageStatus where
  | success
  | error
deriving DecidableEq, Repr

/-- The per-stage record the orchestrator stores (`Orchestrator._run_agent`
writes it into its stats): on success the result is stored and there is no
error message; on failure the error message is stored and no result. -/
structure AgentStats (α : Type) where
  status : StageStatus
  result : Option α
  errorMsg : Option String
  duration_sec : ℚ
  started_at : ℚ
  finished_at : ℚ

/-- Stage runner (`Orchestrator._run_agent`). The stage operation is
embedded as an `Except String α`: its return value, or the rendered message
of the exception it raised. `t` gives the wall-clock instant returned by
the j-th `datetime.now()` call of the run; the runner performs calls `k`
and `k + 1`. Returns the value handed back to the caller (`none` on
failure, modelling Python `None`) paired with the recorded outcome. -/
def run_agent {α : Type} (t : ℕ → ℚ) (k : ℕ) (op : Except String α) :
    Option α × AgentStats α :=
  let start := t k
  let finish := t (k + 1)
  match op with
  | Except.ok r =>
    (some r, ⟨StageStatus.success, some r, none, finish - start, start, finish⟩)
  | Except.error e =>
    (none, ⟨StageStatus.error, none, some e, finish - start, start, finish⟩)

/-- The six stage operations of one pipeline run, embedded as the values
the external agent entry points produce (or the exception messages they
raise). The copywriter stage depends on the trend stage's result and
receives it exactly as the orchestrator passes it (`none` when the trend
stage failed). -/
structure PipelineEnv (α : Type) where
  rss : Except String α
  sonar : Except String α
  trend : Except String α
  copy : Option α → Except String α
  cover : Except String α
  publish : Except String α

/-- The orchestrator's aggregate run report (its stats dictionary):
overall start and finish instants, the ordered per-stage outcomes, and the
collected failure summaries. -/
structure PipelineStats (α : Type) where
  started_at : ℚ
  finished_at : ℚ
  agents : List (String × AgentStats α)
  errors : List (String × String)

/-- Error entries one stage outcome contributes to the failure list. -/
def errEntries {α : Type} (name : String) (st : AgentStats α) : List (String × String) :=
  match st.errorMsg with
  | some e => [(name, e)]
  | none => []

/-- The status an operation's recorded outcome will carry. -/
def statusOf {α : Type} (op : Except String α) : StageStatus :=
  match op with
  | Except.ok _ => StageStatus.success
  | Except.error _ => StageStatus.error

/-- Pipeline (`Orchestrator.run_pipeline`): record the start instant, run
the six stages in fixed order through the stage runner — the trend stage's
returned value being passed on to the copywriter stage — record the finish
instant, and return the report. `t` enumerates the instants of the
successive `datetime.now()` calls of the run. -/
def run_pipeline {α : Type} (t : ℕ → ℚ) (env : PipelineEnv α) : PipelineStats α :=
  let started := t 0
  let p1 := run_agent t 1 env.rss
  let p2 := run_agent t 3 env.sonar
  let p3 := run_agent t 5 env.trend
  let p4 := run_agent t 7 (env.copy p3.1)
  let p5 := run_agent t 9 env.cover
  let p6 := run_agent t 11 env.publish
  { started_at := started
    finished_at := t 13
    agents := [("RSS Collector", p1.2), ("Sonar Scanner", p2.2), ("Trend Selector", p3.2),
               ("Bob Copywriter", p4.2), ("Cover Generator", p5.2), ("Publisher", p6.2)]
    errors := errEntries "RSS Collector" p1.2 ++ errEntries "Sonar Scanner" p2.2 ++
              errEntries "Trend Selector" p3.2 ++ errEntries "Bob Copywriter" p4.2 ++
              errEntries "Cover Generator" p5.2 ++ errEntries "Publisher" p6.2 }

/-- A news item whose timestamp parses to 24 hours after epoch 0. -/
def itemFuture : NewsItem := ⟨"t", "s", "", some 86400⟩

/-- A news item whose timestamp parses to the epoch instant 0. -/
def itemPast : NewsItem := ⟨"t", "s", "", some 0⟩

/-- A news item whose timestamp does not parse. -/
def itemNone : NewsItem := ⟨"t", "s", "", none⟩

/-- A news item from a high-priority brand, published at epoch 0. -/
def itemOldOpenAI : NewsItem := ⟨"t", "s", "OpenAI", some 0⟩

/-- A news item whose brand differs from a priority brand only in case. -/
def itemUnlisted : NewsItem := ⟨"t", "s", "openai", some 0⟩

/-- A stage operation that always raises. -/
def opFail : Except String ℕ := Except.error "boom"

/-- Total length of all buckets of a cluster map. -/
def sumSizes (cs : List (String × List NewsItem)) : ℕ :=
  (cs.map (fun p => p.2.length)).sum

/-- The bucket a cluster map holds for a topic (empty when absent). -/
def bucketOf (t : String) (cs : List (String × List NewsItem)) : List NewsItem :=
  match cs.find? (fun p => decide (p.1 = t)) with
  | some p => p.2
  | none => []

theorem mem_brands_ne_empty {b : String} (h : b ∈ HIGH_PRIORITY_BRANDS) : b ≠ "" := by
  fin_cases h <;> decide

theorem recency_step (now : ℚ) (acc : ℚ) (n : NewsItem) :
    (match n.published_at with
      | some pub => acc + max 0 (1 - ((now - pub) / 3600) / 24) * (1 / 2)
      | none => acc + 1 / 4)
    = acc + recencyItem now n := by
  cases h : n.published_at <;> simp [recencyItem, h]

theorem brand_foldl (cluster : List NewsItem) (acc : ℚ) :
    cluster.foldl
      (fun acc news =>
        if news.brand ≠ "" ∧ news.brand ∈ HIGH_PRIORITY_BRANDS then acc + 2 else acc) acc
    = acc + 2 * ((cluster.countP fun n => decide (n.brand ∈ HIGH_PRIORITY_BRANDS)) : ℚ) := by
  induction cluster generalizing acc with
  | nil => simp
  | cons n ns ih =>
    simp only [List.foldl_cons, List.countP_cons]
    by_cases h : n.brand ∈ HIGH_PRIORITY_BRANDS
    · rw [if_pos ⟨mem_brands_ne_empty h, h⟩, ih]
      simp only [h, decide_True]
      push_cast
      ring
    · rw [if_neg (fun hc => h hc.2), ih]
      simp only [h, decide_False]
      push_cast
      ring

theorem recency_foldl (now : ℚ) (cluster : List NewsItem) (acc : ℚ) :
    cluster.foldl
      (fun acc news =>
        match news.published_at with
        | some pub => acc + max 0 (1 - ((now - pub) / 3600) / 24) * (1 / 2)
        | none => acc + 1 / 4) acc
    = acc + ((cluster.map (recencyItem now)).sum) := by
  induction cluster generalizing acc with
  | nil => simp
  | cons n ns ih =>
    simp only [List.foldl_cons, List.map_cons, List.sum_cons]
    rw [recency_step, ih]
    ring

theorem score_eq (now : ℚ) (cluster : List NewsItem) :
    calculate_score now cluster
      = (cluster.length : ℚ)
        + 2 * ((cluster.countP fun n => decide (n.brand ∈ HIGH_PRIORITY_BRANDS)) : ℚ)
        + ((cluster.map (recencyItem now)).sum) := by
  unfold calculate_score
  rw [brand_foldl, recency_foldl]
  ring

theorem recencyItem_nonneg (now : ℚ) (n : NewsItem) : 0 ≤ recencyItem now n := by
  unfold recencyItem
  cases n.published_at with
  | none => norm_num
  | some pub => exact mul_nonneg (le_max_left 0 _) (by norm_num)

theorem recency_itemOldOpenAI : recencyItem 172800 itemOldOpenAI = 0 := by
  norm_num [recencyItem, itemOldOpenAI]

/-- C1: the score of a cluster is the sum of three components: the item
count (frequency, weight 1.0), 2.0 per item whose brand is in the fixed
high-priority brand set (the empty brand never being in that set), and the
per-item recency contribution, which is `max 0 (1 - hours/24) * 0.5` when
the timestamp parses and a fixed 0.25 when it does not. -/
theorem c1_score_decomposition (now : ℚ) (cluster : List NewsItem) :
    (calculate_score now cluster
      = (cluster.length : ℚ)
        + 2 * ((cluster.countP fun n => decide (n.brand ∈ HIGH_PRIORITY_BRANDS)) : ℚ)
        + ((cluster.map (recencyItem now)).sum))
    ∧ ("" : String) ∉ HIGH_PRIORITY_BRANDS
    ∧ (∀ (n : NewsItem) (pub : ℚ), n.published_at = some pub →
        recencyItem now n = max 0 (1 - ((now - pub) / 3600) / 24) * (1 / 2))
    ∧ (∀ n : NewsItem, n.published_at = none → recencyItem now n = 1 / 4) := by
  refine ⟨score_eq now cluster, by decide, ?_, ?_⟩
  · intro n pub h
    simp [recencyItem, h]
  · intro n h
    simp [recencyItem, h]

/-- Instantiates C1 at concrete items: an unparseable timestamp yields the
0.25 fallback and a parsed timestamp yields the scaled freshness term. -/
theorem c1_score_decomposition_witness :
    recencyItem 0 itemNone = 1 / 4
    ∧ recencyItem 0 itemPast = max 0 (1 - ((0 - 0) / 3600) / 24) * (1 / 2) :=
  ⟨(c1_score_decomposition 0 []).2.2.2 itemNone rfl,
   (c1_score_decomposition 0 []).2.2.1 itemPast 0 rfl⟩

/-- C2 counterexample: for a timestamp 24 hours in the future of the
evaluation instant the recency contribution is 1, exceeding the claimed
upper bound 0.5, and the singleton cluster's score is 2 rather than at
most 1.5. -/
theorem c2_recency_counterexample :
    recencyItem 0 itemFuture = 1
    ∧ ¬ recencyItem 0 itemFuture ≤ 1 / 2
    ∧ calculate_score 0 [itemFuture] = 2 := by
  refine ⟨?_, ?_, ?_⟩
  · norm_num [recencyItem, itemFuture]
  · norm_num [recencyItem, itemFuture]
  · norm_num [calculate_score, itemFuture, HIGH_PRIORITY_BRANDS]

/-- C2 (amended): the recency contribution of an item is always
nonnegative, is at most 0.5 whenever the parsed timestamp does not lie in
the future of the evaluation instant, equals 0.25 when the timestamp does
not parse, and every cluster's total score is nonnegative. -/
theorem c2_recency_bounds (now : ℚ) (n : NewsItem) (cluster : List NewsItem) :
    0 ≤ recencyItem now n
    ∧ (∀ pub : ℚ, n.published_at = some pub → pub ≤ now → recencyItem now n ≤ 1 / 2)
    ∧ (n.published_at = none → recencyItem now n = 1 / 4)
    ∧ 0 ≤ calculate_score now cluster := by
  refine ⟨recencyItem_nonneg now n, ?_, ?_, ?_⟩
  · intro pub h hle
    have hub : max 0 (1 - ((now - pub) / 3600) / 24) ≤ 1 := by
      have h1 : 0 ≤ (now - pub) / 3600 / 24 :=
        div_nonneg (div_nonneg (by linarith) (by norm_num)) (by norm_num)
      have : (1 : ℚ) - ((now - pub) / 3600) / 24 ≤ 1 := by linarith
      exact max_le (by norm_num) this
    calc recencyItem now n = max 0 (1 - ((now - pub) / 3600) / 24) * (1 / 2) := by
          simp [recencyItem, h]
      _ ≤ 1 * (1 / 2) := by
          exact mul_le_mul_of_nonneg_right hub (by norm_num)
      _ ≤ 1 / 2 := by norm_num
  · intro h
    simp [recencyItem, h]
  · rw [score_eq]
    have h1 : (0 : ℚ) ≤ (cluster.length : ℚ) := by positivity
    have h2 : (0 : ℚ) ≤
        ((cluster.countP fun m => decide (m.brand ∈ HIGH_PRIORITY_BRANDS)) : ℚ) := by
      positivity
    have h3 : (0 : ℚ) ≤ (cluster.map (recencyItem now)).sum := by
      apply List.sum_nonneg
      intro x hx
      rcases List.mem_map.mp hx with ⟨m, _, rfl⟩
      exact recencyItem_nonneg now m
    linarith

/-- Instantiates C2 (amended) at a concrete non-future timestamp,
discharging the hypotheses. -/
theorem c2_recency_bounds_witness : recencyItem 0 itemPast ≤ 1 / 2 :=
  (c2_recency_bounds 0 itemPast []).2.1 0 rfl le_rfl

/-- C8: appending one item from a high-priority brand whose recency
contribution is 0 raises the cluster score by exactly 3 — the brand bonus
2.0 plus the frequency contribution 1.0 (a strict increase). -/
theorem c8_priority_item_adds_three (now : ℚ) (cluster : List NewsItem) (n : NewsItem)
    (hb : n.brand ∈ HIGH_PRIORITY_BRANDS) (hr : recencyItem now n = 0) :
    calculate_score now (cluster ++ [n]) = calculate_score now cluster + 3
    ∧ calculate_score now cluster < calculate_score now (cluster ++ [n]) := by
  have hmain : calculate_score now (cluster ++ [n]) = calculate_score now cluster + 3 := by
    rw [score_eq, score_eq]
    simp only [List.length_append, List.countP_append, List.map_append, List.sum_append,
      List.length_cons, List.length_nil, List.countP_cons, List.countP_nil, List.map_cons,
      List.map_nil, List.sum_cons, List.sum_nil, hb, decide_True, hr]
    push_cast
    ring
  exact ⟨hmain, by rw [hmain]; linarith⟩

/-- Instantiates C8: appending an old OpenAI item to the empty cluster. -/
theorem c8_priority_item_adds_three_witness :
    calculate_score 172800 ([] ++ [itemOldOpenAI]) = calculate_score 172800 [] + 3 :=
  (c8_priority_item_adds_three 172800 [] itemOldOpenAI (by decide)
    recency_itemOldOpenAI).1

/-- C10: the priority bonus is decided by exact, case-sensitive membership
in the fixed six-element brand list: a brand differing in case or extended
with a suffix is not a member, and appending any item whose brand is not a
member changes the score only by frequency plus recency (no bonus). -/
theorem c10_brand_exact_membership :
    (HIGH_PRIORITY_BRANDS = ["OpenAI", "Google", "Anthropic", "Meta", "Microsoft", "NVIDIA"]
      ∧ "openai" ∉ HIGH_PRIORITY_BRANDS
      ∧ "OpenAI Inc." ∉ HIGH_PRIORITY_BRANDS
      ∧ "OpenAI" ∈ HIGH_PRIORITY_BRANDS)
    ∧ ∀ (now : ℚ) (cluster : List NewsItem) (n : NewsItem),
        n.brand ∉ HIGH_PRIORITY_BRANDS →
          calculate_score now (cluster ++ [n])
            = calculate_score now cluster + 1 + recencyItem now n := by
  refine ⟨⟨rfl, by decide, by decide, by decide⟩, ?_⟩
  intro now cluster n hb
  rw [score_eq, score_eq]
  simp only [List.length_append, List.countP_append, List.map_append, List.sum_append,
    List.length_cons, List.length_nil, List.countP_cons, List.countP_nil, List.map_cons,
    List.map_nil, List.sum_cons, List.sum_nil, hb, decide_False]
  push_cast
  ring

/-- Instantiates C10 at the lower-cased brand "openai": its bonus is 0. -/
theorem c10_brand_exact_membership_witness :
    calculate_score 0 ([] ++ [itemUnlisted])
      = calculate_score 0 [] + 1 + recencyItem 0 itemUnlisted :=
  c10_brand_exact_membership.2 0 [] itemUnlisted (by decide)

/-- C9: empty input is never an error in the selection pipeline: with zero
news records the trend selector returns the empty trend list and writes no
trends file, and the copywriter returns zero posts both for a missing
(`None`) and for an empty trend list; all three calls return normally. -/
theorem c9_empty_inputs (now : ℚ) {γ : Type} (genPosts : List Trend → ℕ → List γ)
    (saveToSheets : List γ → ℕ) :
    trendSelectorRun now [] = ([], false)
    ∧ copywriterRun genPosts saveToSheets none = 0
    ∧ copywriterRun genPosts saveToSheets (some []) = 0 :=
  ⟨rfl, rfl, rfl⟩

theorem run_agent_status {α : Type} (t : ℕ → ℚ) (k : ℕ) (op : Except String α) :
    (run_agent t k op).2.status = statusOf op := by
  cases op <;> rfl

/-- C6: the stage runner marks the outcome Failed exactly when the
operation raised, carries an error description exactly in that case,
always records start time, finish time and duration, and hands the caller
`none` instead of re-raising on failure (and the return value on
success). -/
theorem c6_stage_runner {α : Type} (t : ℕ → ℚ) (k : ℕ) (op : Except String α) :
    ((run_agent t k op).2.status = StageStatus.error ↔ ∃ e, op = Except.error e)
    ∧ ((run_agent t k op).2.errorMsg.isSome ↔ (run_agent t k op).2.status = StageStatus.error)
    ∧ (run_agent t k op).2.started_at = t k
    ∧ (run_agent t k op).2.finished_at = t (k + 1)
    ∧ (run_agent t k op).2.duration_sec = t (k + 1) - t k
    ∧ (∀ e : String, op = Except.error e → (run_agent t k op).1 = none)
    ∧ (∀ v : α, op = Except.ok v → (run_agent t k op).1 = some v) := by
  cases op with
  | ok v => simp [run_agent]
  | error e => simp [run_agent]

/-- Instantiates C6 at an always-raising stage operation. -/
theorem c6_stage_runner_witness :
    (run_agent (fun _ => 0) 0 opFail).1 = none
    ∧ (run_agent (fun _ => 0) 0 opFail).2.status = StageStatus.error :=
  ⟨(c6_stage_runner (fun _ => 0) 0 opFail).2.2.2.2.2.1 "boom" rfl,
   (c6_stage_runner (fun _ => 0) 0 opFail).1.mpr ⟨"boom", rfl⟩⟩

/-- C7: for every combination of stage outcomes the pipeline runs the six
stages in the fixed order, each stage's recorded status depending only on
its own operation (so an earlier failure never prevents a later stage),
passes the trend stage's returned value to the copywriter stage, records
the start and finish instants, and always returns the report. -/
theorem c7_pipeline_order {α : Type} (t : ℕ → ℚ) (env : PipelineEnv α) :
    (run_pipeline t env).agents.map Prod.fst
        = ["RSS Collector", "Sonar Scanner", "Trend Selector", "Bob Copywriter",
           "Cover Generator", "Publisher"]
    ∧ (run_pipeline t env).agents.map (fun p => p.2.status)
        = [statusOf env.rss, statusOf env.sonar, statusOf env.trend,
           statusOf (env.copy (run_agent t 5 env.trend).1),
           statusOf env.cover, statusOf env.publish]
    ∧ (run_pipeline t env).agents.get? 3
        = some ("Bob Copywriter", (run_agent t 7 (env.copy (run_agent t 5 env.trend).1)).2)
    ∧ (run_pipeline t env).started_at = t 0
    ∧ (run_pipeline t env).finished_at = t 13 := by
  refine ⟨rfl, ?_, rfl, rfl, rfl⟩
  simp only [run_pipeline, List.map_cons, List.map_nil, run_agent_status]

theorem filter_orderedInsert_pos (a : Trend) (q : Trend → Bool) (hqa : q a = true)
    (l : List Trend) (h : ∀ b ∈ l, ¬ trendGE a b → q b = false) :
    (List.orderedInsert trendGE a l).filter q = a :: l.filter q := by
  induction l with
  | nil => simp [hqa]
  | cons b bs ih =>
    simp only [List.orderedInsert]
    by_cases hab : trendGE a b
    · rw [if_pos hab]
      simp [List.filter_cons, hqa]
    · rw [if_neg hab]
      have hqb : q b = false := h b (List.mem_cons_self b bs) hab
      rw [List.filter_cons, List.filter_cons]
      simp only [hqb, Bool.false_eq_true, if_false]
      exact ih (fun c hc hac => h c (List.mem_cons_of_mem b hc) hac)

theorem filter_orderedInsert_neg (a : Trend) (q : Trend → Bool) (hqa : q a = false)
    (l : List Trend) :
    (List.orderedInsert trendGE a l).filter q = l.filter q := by
  induction l with
  | nil => simp [hqa]
  | cons b bs ih =>
    simp only [List.orderedInsert]
    by_cases hab : trendGE a b
    · rw [if_pos hab]
      simp [List.filter_cons, hqa]
    · rw [if_neg hab]
      rw [List.filter_cons, List.filter_cons]
      by_cases hqb : q b = true
      · simp only [hqb, if_true, ih]
      · simp only [Bool.not_eq_true] at hqb
        simp only [hqb, Bool.false_eq_true, if_false, ih]

theorem insertionSort_score_filter (s : ℚ) (l : List Trend) :
    (List.insertionSort trendGE l).filter (fun tr => decide (tr.score = s))
      = l.filter (fun tr => decide (tr.score = s)) := by
  induction l with
  | nil => rfl
  | cons a l ih =>
    simp only [List.insertionSort]
    by_cases hqa : a.score = s
    · rw [filter_orderedInsert_pos a _ (by simp [hqa]) _ ?_]
      · rw [ih, List.filter_cons]
        simp [hqa]
      · intro b _ hab
        have hlt : a.score < b.score := not_le.mp hab
        have hbs : b.score ≠ s := by
          intro hb
          rw [hqa] at hlt
          rw [hb] at hlt
          exact lt_irrefl s hlt
        simp [hbs]
    · rw [filter_orderedInsert_neg a _ (by simp [hqa])]
      rw [ih, List.filter_cons]
      simp [hqa]

/-- C3: the ranker returns exactly `min top_n (number of clusters)` trends
(hence at most `top_n`, and fewer only when fewer clusters exist — it is a
total function, never an error), sorted by score in descending order; the
underlying sort is stable: within any score value the trends keep the
clusters' encounter order. -/
theorem c3_ranking (now : ℚ) (clusters : List (String × List NewsItem)) (top_n : ℕ) :
    (select_top_trends now clusters top_n).length = min top_n clusters.length
    ∧ (select_top_trends now clusters top_n).length ≤ top_n
    ∧ List.Sorted (fun a b => b.score ≤ a.score) (select_top_trends now clusters top_n)
    ∧ select_top_trends now clusters top_n = (sortedTrends now clusters).take top_n
    ∧ ∀ s : ℚ,
        (sortedTrends now clusters).filter (fun tr => decide (tr.score = s))
          = (clusters.map (fun p => mkTrend now p.1 p.2)).filter
              (fun tr => decide (tr.score = s)) := by
  have hlen : (sortedTrends now clusters).length = clusters.length := by
    unfold sortedTrends
    rw [(List.perm_insertionSort trendGE _).length_eq, List.length_map]
  refine ⟨?_, ?_, ?_, rfl, fun s => insertionSort_score_filter s _⟩
  · unfold select_top_trends
    rw [List.length_take, hlen]
  · unfold select_top_trends
    rw [List.length_take]
    exact min_le_left _ _
  · have hs : List.Sorted trendGE (sortedTrends now clusters) :=
      List.sorted_insertionSort trendGE _
    exact List.Pairwise.sublist (List.take_sublist top_n _) hs

theorem find?_first {α : Type} (p : α → Bool) (l : List α) :
    (l.find? p = none ∧ ∀ a ∈ l, p a = false)
    ∨ ∃ l1 a l2, l = l1 ++ a :: l2 ∧ (∀ b ∈ l1, p b = false) ∧ p a = true
        ∧ l.find? p = some a := by
  induction l with
  | nil => left; simp
  | cons x xs ih =>
    by_cases hx : p x = true
    · right
      exact ⟨[], x, xs, by simp, by simp, hx, by simp [List.find?_cons, hx]⟩
    · simp only [Bool.not_eq_true] at hx
      rcases ih with ⟨h1, h2⟩ | ⟨l1, a, l2, heq, hl1, ha, hfind⟩
      · left
        refine ⟨by simp [List.find?_cons, hx, h1], ?_⟩
        intro a ha
        rcases List.mem_cons.mp ha with rfl | hmem
        · exact hx
        · exact h2 a hmem
      · right
        refine ⟨x :: l1, a, l2, by simp [heq], ?_, ha, by simp [List.find?_cons, hx, hfind]⟩
        intro b hb
        rcases List.mem_cons.mp hb with rfl | hmem
        · exact hx
        · exact hl1 b hmem

/-- C4: classification is a total function returning the first label, in
the taxonomy's fixed order, one of whose keywords occurs case-insensitively
in the text, and the default label "AI General" when no keyword of any
label occurs; classifying "GPT-5 benchmark released" yields "AI Models"
and classifying "weather forecast today" yields the default label. -/
theorem c4_classification :
    (∀ text : String,
      (∃ l1 pa l2, TOPIC_KEYWORDS = l1 ++ pa :: l2
        ∧ (∀ q ∈ l1, q.2.any (fun kw => kwIn kw (text.toList.map Char.toLower)) = false)
        ∧ pa.2.any (fun kw => kwIn kw (text.toList.map Char.toLower)) = true
        ∧ classify_topic text = pa.1)
      ∨ ((∀ q ∈ TOPIC_KEYWORDS,
            q.2.any (fun kw => kwIn kw (text.toList.map Char.toLower)) = false)
        ∧ classify_topic text = "AI General"))
    ∧ classify_topic "GPT-5 benchmark released" = "AI Models"
    ∧ classify_topic "weather forecast today" = "AI General" := by
  refine ⟨?_, by decide, by decide⟩
  intro text
  rcases find?_first
      (fun p => p.2.any (fun kw => kwIn kw (text.toList.map Char.toLower)))
      TOPIC_KEYWORDS with ⟨hn, hall⟩ | ⟨l1, a, l2, heq, hl1, ha, hf⟩
  · right
    exact ⟨hall, by unfold classify_topic; simp only [hn]⟩
  · left
    exact ⟨l1, a, l2, heq, hl1, ha, by unfold classify_topic; simp only [hf]⟩

theorem sumSizes_addToCluster (cs : List (String × List NewsItem)) (t : String)
    (r : NewsItem) : sumSizes (addToCluster cs t r) = sumSizes cs + 1 := by
  induction cs with
  | nil => simp [addToCluster, sumSizes]
  | cons p rest ih =>
    obtain ⟨t0, items⟩ := p
    simp only [addToCluster]
    by_cases h : t0 = t
    · rw [if_pos h]
      simp [sumSizes]
      ring
    · rw [if_neg h]
      simp only [sumSizes, List.map_cons, List.sum_cons] at ih ⊢
      omega

theorem sumSizes_foldl (rs : List NewsItem) :
    ∀ cs : List (String × List NewsItem),
      sumSizes (rs.foldl (fun cs record => addToCluster cs (keyOf record) record) cs)
        = sumSizes cs + rs.length := by
  induction rs with
  | nil => intro cs; simp
  | cons r rs ih =>
    intro cs
    simp only [List.foldl_cons, List.length_cons]
    rw [ih, sumSizes_addToCluster]
    ring

theorem bucketOf_addToCluster_same (cs : List (String × List NewsItem)) (t : String)
    (r : NewsItem) : bucketOf t (addToCluster cs t r) = bucketOf t cs ++ [r] := by
  induction cs with
  | nil => simp [addToCluster, bucketOf, List.find?_cons]
  | cons p rest ih =>
    obtain ⟨t0, items⟩ := p
    simp only [addToCluster]
    by_cases h : t0 = t
    · rw [if_pos h]
      subst h
      simp [bucketOf, List.find?_cons]
    · rw [if_neg h]
      simp only [bucketOf, List.find?_cons] at ih ⊢
      have hne : decide (t0 = t) = false := by simp [h]
      simp only [hne, Bool.false_eq_true, if_false]
      exact ih

theorem bucketOf_addToCluster_other (cs : List (String × List NewsItem)) {t u : String}
    (r : NewsItem) (h : u ≠ t) : bucketOf u (addToCluster cs t r) = bucketOf u cs := by
  induction cs with
  | nil =>
    simp only [addToCluster, bucketOf, List.find?_cons]
    have hd : decide (t = u) = false := decide_eq_false (Ne.symm h)
    simp [hd]
  | cons p rest ih =>
    obtain ⟨t0, items⟩ := p
    simp only [addToCluster]
    by_cases h0 : t0 = t
    · rw [if_pos h0]
      subst h0
      have hd : decide (t0 = u) = false := decide_eq_false (Ne.symm h)
      simp [bucketOf, List.find?_cons, hd]
    · rw [if_neg h0]
      simp only [bucketOf, List.find?_cons] at ih ⊢
      by_cases h1 : t0 = u
      · simp [h1]
      · have : decide (t0 = u) = false := by simp [h1]
        simp only [this, Bool.false_eq_true, if_false]
        exact ih

theorem bucketOf_foldl (rs : List NewsItem) :
    ∀ (cs : List (String × List NewsItem)) (u : String),
      bucketOf u (rs.foldl (fun cs record => addToCluster cs (keyOf record) record) cs)
        = bucketOf u cs ++ rs.filter (fun r => decide (keyOf r = u)) := by
  induction rs with
  | nil => intro cs u; simp
  | cons r rs ih =>
    intro cs u
    simp only [List.foldl_cons, List.filter_cons]
    by_cases h : keyOf r = u
    · subst h
      rw [ih, bucketOf_addToCluster_same]
      simp
    · have hd : decide (keyOf r = u) = false := by simp [h]
      rw [ih, bucketOf_addToCluster_other cs r (fun he => h he.symm)]
      simp [hd]

theorem fst_addToCluster (cs : List (String × List NewsItem)) (t : String) (r : NewsItem) :
    (addToCluster cs t r).map Prod.fst
      = if t ∈ cs.map Prod.fst then cs.map Prod.fst else cs.map Prod.fst ++ [t] := by
  induction cs with
  | nil => simp [addToCluster]
  | cons p rest ih =>
    obtain ⟨t0, items⟩ := p
    simp only [addToCluster]
    by_cases h : t0 = t
    · rw [if_pos h]
      subst h
      simp
    · rw [if_neg h]
      simp only [List.map_cons, ih, List.mem_cons]
      by_cases hm : t ∈ rest.map Prod.fst
      · rw [if_pos hm, if_pos (Or.inr hm)]
      · rw [if_neg hm, if_neg (by rintro (he | hm2); exact h he.symm; exact hm hm2)]
        simp

theorem nodup_fst_addToCluster {cs : List (String × List NewsItem)} (t : String)
    (r : NewsItem) (h : (cs.map Prod.fst).Nodup) :
    ((addToCluster cs t r).map Prod.fst).Nodup := by
  rw [fst_addToCluster]
  by_cases hm : t ∈ cs.map Prod.fst
  · rw [if_pos hm]
    exact h
  · rw [if_neg hm]
    rw [List.nodup_append]
    exact ⟨h, List.nodup_singleton t, fun x hx hx1 => hm (by
      rcases List.mem_singleton.mp hx1 with rfl
      exact hx)⟩

theorem mem_fst_addToCluster {cs : List (String × List NewsItem)} {t x : String}
    {r : NewsItem} (h : x ∈ (addToCluster cs t r).map Prod.fst) :
    x ∈ cs.map Prod.fst ∨ x = t := by
  rw [fst_addToCluster] at h
  by_cases hm : t ∈ cs.map Prod.fst
  · rw [if_pos hm] at h
    exact Or.inl h
  · rw [if_neg hm] at h
    rcases List.mem_append.mp h with h1 | h1
    · exact Or.inl h1
    · exact Or.inr (List.mem_singleton.mp h1)

theorem keys_foldl (rs : List NewsItem) :
    ∀ (cs : List (String × List NewsItem)),
      (((rs.foldl (fun cs record => addToCluster cs (keyOf record) record) cs).map
          Prod.fst).Nodup → False → False)
      ∧ ∀ x ∈ (rs.foldl (fun cs record => addToCluster cs (keyOf record) record) cs).map
          Prod.fst, x ∈ cs.map Prod.fst ∨ ∃ r ∈ rs, x = keyOf r := by
  induction rs with
  | nil =>
    intro cs
    exact ⟨fun _ h => h, fun x hx => Or.inl hx⟩
  | cons r rs ih =>
    intro cs
    refine ⟨fun _ h => h, ?_⟩
    intro x hx
    simp only [List.foldl_cons] at hx
    rcases (ih (addToCluster cs (keyOf r) r)).2 x hx with h1 | ⟨r2, hr2, rfl⟩
    · rcases mem_fst_addToCluster h1 with h2 | h2
      · exact Or.inl h2
      · exact Or.inr ⟨r, List.mem_cons_self r rs, h2⟩
    · exact Or.inr ⟨r2, List.mem_cons_of_mem r hr2, rfl⟩

theorem nodup_keys_foldl (rs : List NewsItem) :
    ∀ (cs : List (String × List NewsItem)), (cs.map Prod.fst).Nodup →
      ((rs.foldl (fun cs record => addToCluster cs (keyOf record) record) cs).map
        Prod.fst).Nodup := by
  induction rs with
  | nil => intro cs h; exact h
  | cons r rs ih =>
    intro cs h
    simp only [List.foldl_cons]
    exact ih _ (nodup_fst_addToCluster (keyOf r) r h)

theorem classify_mem (text : String) :
    classify_topic text ∈ TOPIC_KEYWORDS.map Prod.fst ++ ["AI General"] := by
  rcases find?_first
      (fun p => p.2.any fun kw => kwIn kw (text.toList.map Char.toLower))
      TOPIC_KEYWORDS with ⟨hn, _⟩ | ⟨l1, a, l2, _, _, _, hf⟩
  · have hc : classify_topic text = "AI General" := by
      unfold classify_topic
      simp only [hn]
    rw [hc]
    simp
  · have hc : classify_topic text = a.1 := by
      unfold classify_topic
      simp only [hf]
    rw [hc]
    simp only [List.mem_append]
    left
    exact List.mem_map_of_mem Prod.fst (List.mem_of_find?_eq_some hf)

/-- C5: clustering assigns every record to exactly one bucket — the bucket
of a topic is precisely the in-order sublist of records classified to that
topic, and the bucket sizes sum to the input length, so nothing is dropped
or duplicated; empty input yields the empty map, and there are at most
(number of configured labels + 1) buckets. -/
theorem c5_clustering (records : List NewsItem) :
    sumSizes (cluster_news records) = records.length
    ∧ (∀ t : String,
        bucketOf t (cluster_news records) = records.filter (fun r => decide (keyOf r = t)))
    ∧ cluster_news [] = []
    ∧ (cluster_news records).length ≤ TOPIC_KEYWORDS.length + 1 := by
  refine ⟨?_, ?_, rfl, ?_⟩
  · unfold cluster_news
    rw [sumSizes_foldl]
    simp [sumSizes]
  · intro t
    unfold cluster_news
    rw [bucketOf_foldl]
    simp [bucketOf]
  · have hnd : ((cluster_news records).map Prod.fst).Nodup :=
      nodup_keys_foldl records [] (by simp)
    have hsub : (cluster_news records).map Prod.fst
        ⊆ TOPIC_KEYWORDS.map Prod.fst ++ ["AI General"] := by
      intro x hx
      rcases (keys_foldl records []).2 x hx with h1 | ⟨r, _, rfl⟩
      · simp at h1
      · exact classify_mem _
    have hle := (List.subperm_of_subset hnd hsub).length_le
    have hlen : ((cluster_news records).map Prod.fst).length
        = (cluster_news records).length := List.length_map _ _
    rw [hlen] at hle
    simpa using hle

end Bob
